import Mathlib

/-!
Verification development for the `plex_api_tester` repository.

The definitions below are a shallow embedding of the Python sources:

* `plex/api_client.py` — class `PlexAPIClient` (transport `_request`,
  `create_playlist`, construction) and class `PlexPlaylistParser`
  (`extract_playlists`, `extract_playlist_items`, the `_extract_*_data`
  field extractors, and the `parse_*_item` classification helpers used by
  `PlexAPIClient.parse_playlist_data`).
* `plex_api_client.py` — the duplicate free function `parse_playlist_data`
  (the module-level rewrite that logs warnings for skipped items).

Modelling conventions:

* A Python `dict` is an insertion-ordered association list with unique
  keys; `d[k] = v` replaces the value in place (keeping the key's
  position) or appends a fresh key at the end, and `d.setdefault(k, dflt)`
  followed by in-place mutation of the returned reference is modelled by
  `alUpd`.
* Playlist items (`Dict[str, Any]` whose values are optional strings) are
  association lists `Item`; `item.get(k)` is `Item.get`, returning `none`
  both for a missing key and for a stored `None`.
* Python truthiness of an optional string (`if title:`) is `truthy`:
  `None` and `""` are falsy.
* Python `int(s)` on a string is `pyIntOfString`, returning `none` when
  the call would raise `ValueError`.
* Exceptions are `Option`/`Except` failure values; logging is a list of
  emitted `LogLevel`s (message text abstracted away).
-/

/-- Log levels emitted through `logger`; the message text is abstracted. -/
inductive LogLevel where
  | info : LogLevel
  | warning : LogLevel
  | error : LogLevel
deriving DecidableEq, Repr

/-- A log: the sequence of levels of the messages emitted, in order. -/
abbrev Log := List LogLevel

/-- Python truthiness of an optional string: `None` and `""` are falsy. -/
def truthy : Option String → Bool
  | none => false
  | some s => s ≠ ""

/-- A Python string formatted into an f-string: `str(None) = "None"`. -/
def pyToStr : Option String → String
  | none => "None"
  | some s => s

/-- An item mapping (`Dict[str, Optional[str]]`) as an association list. -/
abbrev Item := List (String × Option String)

/-- Lookup `item.get(k)`: the stored value, or `none` when the key is missing. -/
def Item.get (it : Item) (k : String) : Option String :=
  match it with
  | [] => none
  | (k', v) :: rest => if k' = k then v else Item.get rest k

/-- Lookup in an insertion-ordered dict (first binding of the key). -/
def alGet {α : Type} : List (String × α) → String → Option α
  | [], _ => none
  | (k', v) :: rest, k => if k' = k then some v else alGet rest k

/-- Assignment `d[k] = v`: replace in place when `k` is present, else append. -/
def alSet {α : Type} : List (String × α) → String → α → List (String × α)
  | [], k, v => [(k, v)]
  | (k', v') :: rest, k, v =>
      if k' = k then (k', v) :: rest else (k', v') :: alSet rest k v

/-- Python `d.setdefault(k, dflt)` followed by mutating the returned sub-object
with `f`: in place when `k` is present, else the key is appended bound to
`f dflt`. -/
def alUpd {α : Type} : List (String × α) → String → α → (α → α) → List (String × α)
  | [], k, dflt, f => [(k, f dflt)]
  | (k', v') :: rest, k, dflt, f =>
      if k' = k then (k', f v') :: rest else (k', v') :: alUpd rest k dflt f

/-- A non-empty all-digit character list read as a decimal number. -/
def digitsToNat (l : List Char) : Option Nat :=
  if l = [] then none
  else if l.all Char.isDigit then
    some (l.foldl (fun acc c => acc * 10 + (c.toNat - 48)) 0)
  else none

/-- Python `int(s)` on a string: optional surrounding whitespace, an
optional sign, then a non-empty digit string; `none` models `ValueError`. -/
def pyIntOfString (s : String) : Option Int :=
  let t := ((s.toList.dropWhile Char.isWhitespace).reverse.dropWhile
    Char.isWhitespace).reverse
  match t with
  | '-' :: rest => (digitsToNat rest).map (fun n => -(n : Int))
  | '+' :: rest => (digitsToNat rest).map (fun n => (n : Int))
  | rest => (digitsToNat rest).map (fun n => (n : Int))

/-- Python `int(item.get("index") or 0)`: a falsy index (`None` or `""`) becomes
the Python int `0`; otherwise the string is parsed, `none` = `ValueError`. -/
def trackIndex : Option String → Option Int
  | none => some 0
  | some s => if s = "" then some 0 else pyIntOfString s

namespace api_client

/-- A `(title, index, playlistItemID)` tuple built by
`parse_track_item` / `parse_episode_item` in `plex/api_client.py`. -/
abbrev TrackTuple := Option String × Int × Option String

/-- An artist→album→tuples (or show→season→tuples) nested dict. -/
abbrev Grouping := List (String × List (String × List TrackTuple))

/-- A title→attribute-dict bucket (`photos` / `movies`). -/
abbrev Flat := List (String × Item)

/-- A value of the `sorted_data` dict: either a two-level grouping bucket
(`tracks`, `episodes`) or a flat per-title bucket (`photos`, `movies`). -/
inductive Bucket where
  | grouping : Grouping → Bucket
  | flat : Flat → Bucket

/-- The `sorted_data` dict of `PlexAPIClient.parse_playlist_data`. -/
abbrev SortedData := List (String × Bucket)

/-- The literal `sorted_data` initialiser with its four fixed keys. -/
def initSorted : SortedData :=
  [("tracks", Bucket.grouping []),
   ("photos", Bucket.flat []),
   ("episodes", Bucket.grouping []),
   ("movies", Bucket.flat [])]

/-- Python `sorted_data["tracks"].setdefault(artist, dict()).setdefault(album, [])
.append(t)` on the grouping sub-dict. -/
def trackIns (g : Grouping) (artist album : String) (t : TrackTuple) : Grouping :=
  alUpd g artist [] (fun ad => alUpd ad album [] (fun l => l ++ [t]))

/-- Python `PlexPlaylistParser.parse_track_item`.  The tuple (with its `int`
conversion) is built before the `if artist and album` guard, so an
unparsable index raises (`none`) even when the guard would skip. -/
def parse_track_item (it : Item) (sd : SortedData) : Option SortedData :=
  match trackIndex (it.get "index") with
  | none => none
  | some idx =>
    match it.get "grandparentTitle", it.get "parentTitle" with
    | some artist, some album =>
        if artist = "" ∨ album = "" then some sd
        else
          match alGet sd "tracks" with
          | some (Bucket.grouping g) =>
              some (alSet sd "tracks" (Bucket.grouping
                (trackIns g artist album (it.get "title", idx, it.get "playlistItemID"))))
          | _ => none
    | _, _ => some sd

/-- The attribute dict stored by `parse_photo_item` under the title. -/
def photoEntry (plex_base_url : String) (it : Item) : Item :=
  [("file", some (plex_base_url ++ "/" ++ pyToStr (it.get "file"))),
   ("thumb", some (plex_base_url ++ "/" ++ pyToStr (it.get "thumb"))),
   ("playlistItemID", it.get "playlistItemID")]

/-- Python `PlexPlaylistParser.parse_photo_item`. -/
def parse_photo_item (plex_base_url : String) (it : Item) (sd : SortedData) :
    Option SortedData :=
  match it.get "title" with
  | some title =>
      if title = "" then some sd
      else
        match alGet sd "photos" with
        | some (Bucket.flat p) =>
            some (alSet sd "photos" (Bucket.flat
              (alSet p title (photoEntry plex_base_url it))))
        | _ => none
  | none => some sd

/-- Python `PlexPlaylistParser.parse_episode_item`. -/
def parse_episode_item (it : Item) (sd : SortedData) : Option SortedData :=
  match trackIndex (it.get "index") with
  | none => none
  | some idx =>
    match it.get "grandparentTitle", it.get "parentTitle" with
    | some shw, some season =>
        if shw = "" ∨ season = "" then some sd
        else
          match alGet sd "episodes" with
          | some (Bucket.grouping g) =>
              some (alSet sd "episodes" (Bucket.grouping
                (trackIns g shw season (it.get "title", idx, it.get "playlistItemID"))))
          | _ => none
    | _, _ => some sd

/-- The attribute dict stored by `parse_movie_item` under the title. -/
def movieEntry (it : Item) : Item :=
  [("year", it.get "year"),
   ("duration", it.get "duration"),
   ("playlistItemID", it.get "playlistItemID")]

/-- Python `PlexPlaylistParser.parse_movie_item`. -/
def parse_movie_item (it : Item) (sd : SortedData) : Option SortedData :=
  match it.get "title" with
  | some title =>
      if title = "" then some sd
      else
        match alGet sd "movies" with
        | some (Bucket.flat m) =>
            some (alSet sd "movies" (Bucket.flat (alSet m title (movieEntry it))))
        | _ => none
  | none => some sd

/-- One iteration of the `for item in data` loop of
`PlexAPIClient.parse_playlist_data`: the dispatch on `item.get("type")`
with its surrounding `try/except` (an exception logs an error and leaves
`sorted_data` as it was). -/
def pstep1 (plex_base_url : String) (sd : SortedData) (it : Item) :
    SortedData × Log :=
  let res : Option SortedData :=
    if it.get "type" = some "track" then parse_track_item it sd
    else if it.get "type" = some "photo" then parse_photo_item plex_base_url it sd
    else if it.get "type" = some "episode" then parse_episode_item it sd
    else if it.get "type" = some "movie" then parse_movie_item it sd
    else some sd
  match res with
  | some sd' => (sd', [])
  | none => (sd, [LogLevel.error])

/-- The loop body threading the accumulated log. -/
def pstep (plex_base_url : String) (st : SortedData × Log) (it : Item) :
    SortedData × Log :=
  let r := pstep1 plex_base_url st.1 it
  (r.1, st.2 ++ r.2)

/-- Python `PlexAPIClient.parse_playlist_data` (`plex/api_client.py`), with the
log of emitted messages. -/
def parse_playlist_data (plex_base_url : String) (data : List Item) :
    SortedData × Log :=
  data.foldl (pstep plex_base_url) (initSorted, [])

/-- Bucket read-out in the style of `sorted_data["tracks"]`: the tuple list stored for a
grouping key and subgroup key in a grouping bucket (`[]` when absent). -/
def groupList (sd : SortedData) (bucket a b : String) : List TrackTuple :=
  match alGet sd bucket with
  | some (Bucket.grouping g) =>
      match alGet g a with
      | some ad => match alGet ad b with
                   | some l => l
                   | none => []
      | none => []
  | _ => []

/-- The entry stored for a title in a flat bucket (`photos`/`movies`). -/
def flatGet (sd : SortedData) (bucket title : String) : Option Item :=
  match alGet sd bucket with
  | some (Bucket.flat p) => alGet p title
  | _ => none

/-- The underlying association list of a flat bucket. -/
def flatList (sd : SortedData) (bucket : String) : Flat :=
  match alGet sd bucket with
  | some (Bucket.flat p) => p
  | _ => []

/-! Proof infrastructure: the `sorted_data` dict always keeps the shape of
its four-key literal initialiser, so the loop is equivalently a fold over
a four-component record.  `pstep_mk4` proves the equivalence. -/

/-- The four bucket contents plus the log, as a record. -/
structure St4 where
  tracks : Grouping
  photos : Flat
  episodes : Grouping
  movies : Flat
  log : Log

/-- A `sorted_data` dict of the invariant shape. -/
def mk4 (t : Grouping) (p : Flat) (e : Grouping) (m : Flat) : SortedData :=
  [("tracks", Bucket.grouping t),
   ("photos", Bucket.flat p),
   ("episodes", Bucket.grouping e),
   ("movies", Bucket.flat m)]

/-- The pair state corresponding to an `St4`. -/
def st4Pair (s : St4) : SortedData × Log :=
  (mk4 s.tracks s.photos s.episodes s.movies, s.log)

/-- The loop body expressed on the four components directly. -/
def step4 (plex_base_url : String) (s : St4) (it : Item) : St4 :=
  if it.get "type" = some "track" then
    match trackIndex (it.get "index") with
    | none => { s with log := s.log ++ [LogLevel.error] }
    | some idx =>
      match it.get "grandparentTitle", it.get "parentTitle" with
      | some a, some b =>
          if a = "" ∨ b = "" then s
          else
            { s with tracks := trackIns s.tracks a b (it.get "title", idx, it.get "playlistItemID") }
      | _, _ => s
  else if it.get "type" = some "photo" then
    match it.get "title" with
    | some ttl =>
        if ttl = "" then s
        else { s with photos := alSet s.photos ttl (photoEntry plex_base_url it) }
    | none => s
  else if it.get "type" = some "episode" then
    match trackIndex (it.get "index") with
    | none => { s with log := s.log ++ [LogLevel.error] }
    | some idx =>
      match it.get "grandparentTitle", it.get "parentTitle" with
      | some a, some b =>
          if a = "" ∨ b = "" then s
          else
            { s with episodes := trackIns s.episodes a b (it.get "title", idx, it.get "playlistItemID") }
      | _, _ => s
  else if it.get "type" = some "movie" then
    match it.get "title" with
    | some ttl =>
        if ttl = "" then s
        else { s with movies := alSet s.movies ttl (movieEntry it) }
    | none => s
  else s

/-- Folding `step4` over the data. -/
def fold4 (plex_base_url : String) (s : St4) (data : List Item) : St4 :=
  data.foldl (step4 plex_base_url) s

/-- The sub-list stored in a grouping bucket for a key pair. -/
def gListAt (g : Grouping) (a b : String) : List TrackTuple :=
  (alGet ((alGet g a).getD []) b).getD []

/-- The items that contribute a tuple to `tracks[a][b]`: type `track`, a
parsable (or falsy) index, and exactly the truthy artist `a`, album `b`. -/
def isTrackFor (a b : String) (it : Item) : Bool :=
  decide (it.get "type" = some "track" ∧ (trackIndex (it.get "index")).isSome = true ∧
    it.get "grandparentTitle" = some a ∧ a ≠ "" ∧ it.get "parentTitle" = some b ∧ b ≠ "")

/-- The items that contribute a tuple to `episodes[a][b]`. -/
def isEpisodeFor (a b : String) (it : Item) : Bool :=
  decide (it.get "type" = some "episode" ∧ (trackIndex (it.get "index")).isSome = true ∧
    it.get "grandparentTitle" = some a ∧ a ≠ "" ∧ it.get "parentTitle" = some b ∧ b ≠ "")

/-- The `(title, index, playlistItemID)` tuple an item contributes. -/
def tupleOf (it : Item) : TrackTuple :=
  (it.get "title", (trackIndex (it.get "index")).getD 0, it.get "playlistItemID")

/-- The items that write the `photos` bucket at key `ttl`. -/
def isPhotoFor (ttl : String) (it : Item) : Bool :=
  decide (it.get "type" = some "photo" ∧ it.get "title" = some ttl ∧ ttl ≠ "")

/-- The items that write the `movies` bucket at key `ttl`. -/
def isMovieFor (ttl : String) (it : Item) : Bool :=
  decide (it.get "type" = some "movie" ∧ it.get "title" = some ttl ∧ ttl ≠ "")

/-- The last element of a list satisfying `p`, if any. -/
def lastWith (p : Item → Bool) (data : List Item) : Option Item :=
  data.foldl (fun acc it => if p it then some it else acc) none

end api_client

/-! XML element trees (`xml.etree.ElementTree.Element`): a tag, an
attribute dict, and a list of child elements in document order. -/

/-- An XML element. -/
inductive Element where
  | mk (tag : String) (attrs : List (String × String)) (children : List Element)

/-- The element's tag. -/
def Element.tag : Element → String
  | .mk t _ _ => t

/-- Attribute lookup in an attribute dict. -/
def attrGet : List (String × String) → String → Option String
  | [], _ => none
  | (k, v) :: rest, a => if k = a then some v else attrGet rest a

/-- Attribute access `element.get(attr)`: the attribute value or `None`. -/
def Element.get (el : Element) (attr : String) : Option String :=
  match el with
  | .mk _ attrs _ => attrGet attrs attr

mutual
/-- All strict descendants of an element, in document order. -/
def Element.descendants : Element → List Element
  | .mk _ _ children => Element.descList children
/-- Descendant lists: each element followed by its own descendants. -/
def Element.descList : List Element → List Element
  | [] => []
  | c :: cs => c :: Element.descendants c ++ Element.descList cs
end

/-- Search `root.findall(".//tag")`: all descendants with the tag, in document
order. -/
def Element.findall (el : Element) (tag : String) : List Element :=
  el.descendants.filter (fun c => c.tag = tag)

/-- Search `root.find(".//tag")`: the first such descendant, or `None`. -/
def Element.findFirst (el : Element) (tag : String) : Option Element :=
  (el.findall tag).head?

namespace api_client

/-- Python `PlexPlaylistParser._safe_get`. -/
def _safe_get (element : Option Element) (attr : String) : Option String :=
  match element with
  | some el => el.get attr
  | none => none

/-- Python `PlexPlaylistParser.extract_playlists`: the `(ratingKey, title,
playlistType)` triples of the `Playlist` elements carrying all three
attributes with truthy values. -/
def extract_playlists (root : Option Element) :
    List (Option String × Option String × Option String) :=
  match root with
  | none => []
  | some r =>
      ((r.findall "Playlist").filter (fun pl =>
          truthy (pl.get "ratingKey") && truthy (pl.get "title") &&
          truthy (pl.get "playlistType"))).map
        (fun pl => (pl.get "ratingKey", pl.get "title", pl.get "playlistType"))

/-- Python `PlexPlaylistParser._extract_audio_data`. -/
def _extract_audio_data (track : Element) : Item :=
  [("key", _safe_get (some track) "key"),
   ("title", _safe_get (some track) "title"),
   ("duration", _safe_get (some track) "duration"),
   ("index", _safe_get (some track) "index"),
   ("type", _safe_get (some track) "type"),
   ("parentTitle", _safe_get (some track) "parentTitle"),
   ("grandparentTitle", _safe_get (some track) "grandparentTitle"),
   ("grandparentThumb", _safe_get (some track) "grandparentThumb"),
   ("playlistItemID", _safe_get (some track) "playlistItemID")]

/-- Python `PlexPlaylistParser._extract_video_data`: an item dict for `episode`
or `movie` typed videos, `None` (falling off the function) otherwise. -/
def _extract_video_data (video : Element) : Option Item :=
  let item_type := _safe_get (some video) "type"
  if item_type = some "episode" then
    some [("key", _safe_get (some video) "key"),
          ("title", _safe_get (some video) "title"),
          ("duration", _safe_get (some video) "duration"),
          ("index", _safe_get (some video) "index"),
          ("type", item_type),
          ("parentTitle", _safe_get (some video) "parentTitle"),
          ("grandparentTitle", _safe_get (some video) "grandparentTitle"),
          ("grandparentThumb", _safe_get (some video) "grandparentThumb"),
          ("playlistItemID", _safe_get (some video) "playlistItemID")]
  else if item_type = some "movie" then
    some [("key", _safe_get (some video) "key"),
          ("title", _safe_get (some video) "title"),
          ("type", item_type),
          ("duration", _safe_get (some video) "duration"),
          ("year", _safe_get (some video) "year"),
          ("thumb", _safe_get (some video) "thumb"),
          ("playlistItemID", _safe_get (some video) "playlistItemID")]
  else none

/-- Python `PlexPlaylistParser._extract_photo_data`. -/
def _extract_photo_data (photo : Element) : Item :=
  [("key", _safe_get (some photo) "key"),
   ("title", _safe_get (some photo) "title"),
   ("type", _safe_get (some photo) "type"),
   ("thumb", _safe_get (some photo) "thumb"),
   ("playlistItemID", _safe_get (some photo) "playlistItemID"),
   ("file", match photo.findFirst "Part" with
            | some part => _safe_get (some part) "file"
            | none => none)]

/-- Python `PlexPlaylistParser.extract_playlist_items`: the audio and photo
extractors always build a dict (`some`), while the video extractor may
yield `None`, so the result is a list of optional item dicts. -/
def extract_playlist_items (root : Option Element) (playlist_type : Option String) :
    List (Option Item) :=
  match root with
  | none => []
  | some r =>
      if playlist_type = some "audio" then
        (r.findall "Track").map (fun tr => some (_extract_audio_data tr))
      else if playlist_type = some "video" then
        (r.findall "Video").map _extract_video_data
      else if playlist_type = some "photo" then
        (r.findall "Photo").map (fun ph => some (_extract_photo_data ph))
      else []

/-! Transport (`PlexAPIClient._request` and `create_playlist`).  The
network is an oracle: a request either fails (`requests.RequestException`)
or yields a response with a status code and a body.  A body is modelled by
the outcomes of the two parsers applied to it: `xml` is the result of
`ElementTree.fromstring` (`none` = `ParseError`) and `json` the result of
`response.json()` (`none` = decoding raises), with decoded JSON values
abstracted as strings. -/

/-- A response body, by its two parse outcomes. -/
structure RawBody where
  xml : Option Element
  json : Option String

/-- The outcome of one HTTP request issued by `requests.request`. -/
inductive HTTPOutcome where
  | netError : HTTPOutcome
  | success (status : Nat) (body : RawBody) : HTTPOutcome

/-- What `_request` returns on success: the parsed tree for GET, the raw
response object otherwise. -/
inductive ReqResult where
  | elem (e : Element) : ReqResult
  | rawResp (status : Nat) (body : RawBody) : ReqResult

/-- Python `PlexAPIClient._request`: `raise_for_status` raises exactly for
status codes in `[400, 600)`; both that and a GET-body `ParseError` are
caught, logged and turned into `None`. -/
def _request (method : String) (outcome : HTTPOutcome) : Option ReqResult × Log :=
  match outcome with
  | .netError => (none, [LogLevel.error])
  | .success st body =>
      if 400 ≤ st ∧ st < 600 then (none, [LogLevel.error])
      else if method = "GET" then
        match body.xml with
        | some e => (some (.elem e), [])
        | none => (none, [LogLevel.error])
      else (some (.rawResp st body), [])

/-- The comma-joined `library://{uri}` parameter of `create_playlist`. -/
def uri_param (item_uris : List String) : String :=
  String.intercalate "," (item_uris.map (fun uri => "library://" ++ uri))

/-- The form fields sent by `create_playlist`. -/
def postFields (title media_type : String) (item_uris : List String) :
    List (String × String) :=
  [("type", media_type), ("title", title), ("uri", uri_param item_uris)]

/-- Python `PlexAPIClient.create_playlist`: POSTs the form fields and decodes
the body when the status is 201.  `net` is the network oracle mapping the
sent fields to the request outcome.  `Except.error ()` marks an exception
escaping to the caller (the `response.json()` call is outside every
`try`). -/
def create_playlist (net : List (String × String) → HTTPOutcome)
    (title media_type : String) (item_uris : List String) :
    Except Unit (Option String) × Log :=
  let data := postFields title media_type item_uris
  match _request "POST" (net data) with
  | (some (.rawResp st body), lg) =>
      if st = 201 then
        match body.json with
        | some v => (.ok (some v), lg ++ [LogLevel.info])
        | none => (.error (), lg ++ [LogLevel.info])
      else (.ok none, lg ++ [LogLevel.error])
  | (some (.elem _), lg) => (.error (), lg)
  | (none, lg) => (.ok none, lg ++ [LogLevel.error])

/-! Construction (`PlexAPIClient.__init__`): reads `config_instance`
(`PlexConfig`), whose `baseurl` and `token` are optional strings, and
raises `ValueError` when either is falsy. -/

/-- The configuration fields `PlexAPIClient.__init__` reads. -/
structure PlexConfig where
  baseurl : Option String
  token : Option String

/-- A successfully constructed client. -/
structure PlexAPIClient where
  plex_base_url : Option String
  api_key : Option String
  headers : List (String × Option String)

/-- Python `PlexAPIClient.__init__`: `Except.error msg` models a raised
`ValueError(msg)`. -/
def PlexAPIClient.init (config_instance : PlexConfig) :
    Except String PlexAPIClient :=
  let plex_base_url := config_instance.baseurl
  if truthy plex_base_url = false then .error "PLEX_BASEURL variable not set"
  else
    let api_key := config_instance.token
    if truthy api_key = false then .error "PLEX_TOKEN variable not set"
    else .ok { plex_base_url := plex_base_url, api_key := api_key,
               headers := [("X-Plex-Token", api_key)] }

end api_client

/-! The duplicate module-level `parse_playlist_data` of
`plex_api_client.py`: same four-bucket classification, but the
track/episode entries are 3-element lists (no `int` conversion of the
index), skipped items log a warning, unknown types log a warning, and the
base URL comes from `os.getenv("PLEX_BASEURL")` (an optional string). -/

namespace plex_api_client

/-- A `[title, index, playlistItemID]` entry (a Python list). -/
abbrev DTuple := List (Option String)

/-- A bucket of the duplicate's `sorted_data` dict. -/
inductive DBucket where
  | grouping : List (String × List (String × List DTuple)) → DBucket
  | flat : List (String × Item) → DBucket

/-- The duplicate's `sorted_data` dict. -/
abbrev DSorted := List (String × DBucket)

/-- Its four-key literal initialiser. -/
def dInit : DSorted :=
  [("tracks", DBucket.grouping []),
   ("photos", DBucket.flat []),
   ("episodes", DBucket.grouping []),
   ("movies", DBucket.flat [])]

/-- The photo attribute dict (f-strings render a `None` base URL as the
string `"None"`). -/
def photoEntry (plex_base_url : Option String) (it : Item) : Item :=
  [("file", some (pyToStr plex_base_url ++ "/" ++ pyToStr (it.get "file"))),
   ("thumb", some (pyToStr plex_base_url ++ "/" ++ pyToStr (it.get "thumb"))),
   ("playlistItemID", it.get "playlistItemID")]

/-- The movie attribute dict. -/
def movieEntry (it : Item) : Item :=
  [("year", it.get "year"),
   ("duration", it.get "duration"),
   ("playlistItemID", it.get "playlistItemID")]

/-- The `track` branch.  The Python guard is
`if not artist or not album or not track:`; its third disjunct is dead
code (`track` is a freshly built 3-element list, never falsy) and is
omitted.  `Except.error ()` marks an exception (impossible lookups). -/
def d_track (it : Item) (sd : DSorted) : Except Unit (DSorted × Log) :=
  match it.get "grandparentTitle", it.get "parentTitle" with
  | some artist, some album =>
      if artist = "" ∨ album = "" then .ok (sd, [LogLevel.warning])
      else
        match alGet sd "tracks" with
        | some (DBucket.grouping g) =>
            .ok (alSet sd "tracks" (DBucket.grouping (alUpd g artist []
              (fun ad => alUpd ad album [] (fun l =>
                l ++ [[it.get "title", it.get "index", it.get "playlistItemID"]])))), [])
        | _ => .error ()
  | _, _ => .ok (sd, [LogLevel.warning])

/-- The `photo` branch. -/
def d_photo (plex_base_url : Option String) (it : Item) (sd : DSorted) :
    Except Unit (DSorted × Log) :=
  match it.get "title" with
  | some title =>
      if title = "" then .ok (sd, [LogLevel.warning])
      else
        match alGet sd "photos" with
        | some (DBucket.flat p) =>
            .ok (alSet sd "photos" (DBucket.flat
              (alSet p title (photoEntry plex_base_url it))), [])
        | _ => .error ()
  | none => .ok (sd, [LogLevel.warning])

/-- The `episode` branch. -/
def d_episode (it : Item) (sd : DSorted) : Except Unit (DSorted × Log) :=
  match it.get "grandparentTitle", it.get "parentTitle" with
  | some shw, some season =>
      if shw = "" ∨ season = "" then .ok (sd, [LogLevel.warning])
      else
        match alGet sd "episodes" with
        | some (DBucket.grouping g) =>
            .ok (alSet sd "episodes" (DBucket.grouping (alUpd g shw []
              (fun ad => alUpd ad season [] (fun l =>
                l ++ [[it.get "title", it.get "index", it.get "playlistItemID"]])))), [])
        | _ => .error ()
  | _, _ => .ok (sd, [LogLevel.warning])

/-- The `movie` branch. -/
def d_movie (it : Item) (sd : DSorted) : Except Unit (DSorted × Log) :=
  match it.get "title" with
  | some title =>
      if title = "" then .ok (sd, [LogLevel.warning])
      else
        match alGet sd "movies" with
        | some (DBucket.flat m) =>
            .ok (alSet sd "movies" (DBucket.flat (alSet m title (movieEntry it))), [])
        | _ => .error ()
  | none => .ok (sd, [LogLevel.warning])

/-- One iteration of the duplicate's loop: dispatch, unknown types log a
warning, a raised exception logs an error and leaves the dict as-is. -/
def dstep1 (plex_base_url : Option String) (sd : DSorted) (it : Item) :
    DSorted × Log :=
  let res : Except Unit (DSorted × Log) :=
    if it.get "type" = some "track" then d_track it sd
    else if it.get "type" = some "photo" then d_photo plex_base_url it sd
    else if it.get "type" = some "episode" then d_episode it sd
    else if it.get "type" = some "movie" then d_movie it sd
    else .ok (sd, [LogLevel.warning])
  match res with
  | .ok r => r
  | .error _ => (sd, [LogLevel.error])

/-- The loop body threading the accumulated log. -/
def dstep (plex_base_url : Option String) (st : DSorted × Log) (it : Item) :
    DSorted × Log :=
  let r := dstep1 plex_base_url st.1 it
  (r.1, st.2 ++ r.2)

/-- The module-level `parse_playlist_data` of `plex_api_client.py`. -/
def parse_playlist_data (plex_base_url : Option String) (data : List Item) :
    DSorted × Log :=
  data.foldl (dstep plex_base_url) (dInit, [])

end plex_api_client

/-! Generic lemmas about the insertion-ordered dict operations. -/

theorem alGet_alSet {α : Type} (d : List (String × α)) (k : String) (v : α)
    (k' : String) :
    alGet (alSet d k v) k' = if k = k' then some v else alGet d k' := by
  induction d with
  | nil => by_cases h : k = k' <;> simp [alSet, alGet, h]
  | cons kv rest ih =>
      obtain ⟨k0, v0⟩ := kv
      simp only [alSet]
      by_cases h0 : k0 = k
      · subst h0
        rw [if_pos rfl]
        by_cases h : k0 = k' <;> simp [alGet, h]
      · rw [if_neg h0]
        by_cases h : k0 = k'
        · subst h
          have hkk : ¬ k = k0 := fun hk => h0 hk.symm
          simp [alGet, hkk]
        · simp [alGet, h, ih]

theorem alGet_alUpd {α : Type} (d : List (String × α)) (k : String) (dflt : α)
    (f : α → α) (k' : String) :
    alGet (alUpd d k dflt f) k' =
      if k = k' then some (f ((alGet d k).getD dflt)) else alGet d k' := by
  induction d with
  | nil => by_cases h : k = k' <;> simp [alUpd, alGet, h]
  | cons kv rest ih =>
      obtain ⟨k0, v0⟩ := kv
      simp only [alUpd]
      by_cases h0 : k0 = k
      · subst h0
        rw [if_pos rfl]
        by_cases h : k0 = k' <;> simp [alGet, h]
      · rw [if_neg h0]
        have hkk : ¬ k = k0 := fun hk => h0 hk.symm
        by_cases h : k0 = k'
        · subst h
          simp [alGet, hkk]
        · simp [alGet, h, h0, ih]

theorem alGet_eq_none_iff {α : Type} (d : List (String × α)) (k : String) :
    alGet d k = none ↔ k ∉ d.map Prod.fst := by
  induction d with
  | nil => simp [alGet]
  | cons kv rest ih =>
      obtain ⟨k0, v0⟩ := kv
      simp only [alGet, List.map_cons, List.mem_cons]
      by_cases h : k0 = k
      · subst h; simp
      · rw [if_neg h, ih]
        constructor
        · intro hnm hor
          rcases hor with h1 | h1
          · exact h h1.symm
          · exact hnm h1
        · exact fun hno hm => hno (Or.inr hm)

theorem keys_alSet {α : Type} (d : List (String × α)) (k : String) (v : α) :
    (alSet d k v).map Prod.fst =
      if k ∈ d.map Prod.fst then d.map Prod.fst else d.map Prod.fst ++ [k] := by
  induction d with
  | nil => simp [alSet]
  | cons kv rest ih =>
      obtain ⟨k0, v0⟩ := kv
      simp only [alSet]
      by_cases h : k0 = k
      · subst h; simp
      · have hkk : ¬ k = k0 := fun hk => h hk.symm
        rw [if_neg h]
        by_cases hm : k ∈ rest.map Prod.fst <;>
          simp [hkk, hm, ih]

theorem nodup_keys_alSet {α : Type} (d : List (String × α)) (k : String) (v : α)
    (hd : (d.map Prod.fst).Nodup) : ((alSet d k v).map Prod.fst).Nodup := by
  rw [keys_alSet]
  by_cases hm : k ∈ d.map Prod.fst
  · simpa [hm] using hd
  · simp only [hm, if_false]
    exact List.Nodup.append hd (List.nodup_singleton k)
      (fun a ha hb => hm (List.mem_singleton.mp hb ▸ ha))

theorem count_key_of_alGet {α : Type} (d : List (String × α)) (k : String) (v : α)
    (hd : (d.map Prod.fst).Nodup) (h : alGet d k = some v) :
    (d.map Prod.fst).count k = 1 := by
  have hmem : k ∈ d.map Prod.fst := by
    by_contra hm
    rw [(alGet_eq_none_iff d k).mpr hm] at h
    exact Option.noConfusion h
  exact List.count_eq_one_of_mem hd hmem

theorem truthy_iff (o : Option String) :
    truthy o = true ↔ ∃ s, o = some s ∧ s ≠ "" := by
  cases o <;> simp [truthy]

namespace api_client

theorem pstep_mk4 (base : String) (s : St4) (it : Item) :
    pstep base (st4Pair s) it = st4Pair (step4 base s it) := by
  obtain ⟨t, p, e, m, lg⟩ := s
  simp only [pstep, pstep1, step4, st4Pair]
  by_cases h1 : it.get "type" = some "track"
  · simp only [h1, if_true, if_pos]
    simp only [parse_track_item]
    rcases hidx : trackIndex (it.get "index") with _ | idx
    · simp [mk4]
    · rcases ha : it.get "grandparentTitle" with _ | a <;>
        rcases hb : it.get "parentTitle" with _ | b <;>
        simp only []
      · simp [mk4]
      · simp [mk4]
      · simp [mk4]
      · by_cases hab : a = "" ∨ b = ""
        · simp [hab, mk4]
        · simp [hab, mk4, alGet, alSet]
  · simp only [h1, if_false]
    by_cases h2 : it.get "type" = some "photo"
    · simp only [h2, if_true]
      simp only [parse_photo_item]
      rcases hti : it.get "title" with _ | ttl
      · simp [mk4]
      · by_cases ht : ttl = ""
        · simp [ht, mk4]
        · simp [ht, mk4, alGet, alSet]
    · simp only [h2, if_false]
      by_cases h3 : it.get "type" = some "episode"
      · simp only [h3, if_true]
        simp only [parse_episode_item]
        rcases hidx : trackIndex (it.get "index") with _ | idx
        · simp [mk4]
        · rcases ha : it.get "grandparentTitle" with _ | a <;>
            rcases hb : it.get "parentTitle" with _ | b <;>
            simp only []
          · simp [mk4]
          · simp [mk4]
          · simp [mk4]
          · by_cases hab : a = "" ∨ b = ""
            · simp [hab, mk4]
            · simp [hab, mk4, alGet, alSet]
      · simp only [h3, if_false]
        by_cases h4 : it.get "type" = some "movie"
        · simp only [h4, if_true]
          simp only [parse_movie_item]
          rcases hti : it.get "title" with _ | ttl
          · simp [mk4]
          · by_cases ht : ttl = ""
            · simp [ht, mk4]
            · simp [ht, mk4, alGet, alSet]
        · simp [h4, mk4]

theorem pfoldl_mk4 (base : String) (data : List Item) :
    ∀ s : St4, data.foldl (pstep base) (st4Pair s) = st4Pair (fold4 base s data) := by
  induction data with
  | nil => intro s; rfl
  | cons it rest ih =>
      intro s
      simp only [List.foldl_cons, fold4, pstep_mk4]
      exact ih (step4 base s it)

/-- Theorem: `parse_playlist_data` computed through the four-component fold. -/
theorem parse_eq_fold4 (base : String) (data : List Item) :
    parse_playlist_data base data = st4Pair (fold4 base ⟨[], [], [], [], []⟩ data) := by
  have h0 : (initSorted, ([] : Log)) = st4Pair ⟨[], [], [], [], []⟩ := rfl
  rw [parse_playlist_data, h0, pfoldl_mk4]

theorem gListAt_trackIns (g : Grouping) (a' b' a b : String) (tup : TrackTuple) :
    gListAt (trackIns g a' b' tup) a b =
      if a' = a ∧ b' = b then gListAt g a b ++ [tup] else gListAt g a b := by
  unfold gListAt trackIns
  rw [alGet_alUpd]
  by_cases ha : a' = a
  · subst ha
    simp only [eq_self_iff_true, if_true, true_and, Option.getD_some]
    rw [alGet_alUpd]
    by_cases hb : b' = b
    · subst hb
      simp
    · simp [hb]
  · simp [ha]

/-- An item whose type is not `"track"` leaves the tracks bucket alone. -/
theorem step4_tracks_eq (base : String) (s : St4) (it : Item)
    (h1 : ¬ it.get "type" = some "track") :
    (step4 base s it).tracks = s.tracks := by
  unfold step4
  rw [if_neg h1]
  by_cases h2 : it.get "type" = some "photo"
  · rw [if_pos h2]
    rcases it.get "title" with _ | ttl
    · simp
    · by_cases ht : ttl = "" <;> simp [ht]
  · rw [if_neg h2]
    by_cases h3 : it.get "type" = some "episode"
    · rw [if_pos h3]
      rcases trackIndex (it.get "index") with _ | idx
      · simp
      · rcases it.get "grandparentTitle" with _ | a'
        · simp
        · rcases it.get "parentTitle" with _ | b'
          · simp
          · by_cases hab : a' = "" ∨ b' = "" <;> simp [hab]
    · rw [if_neg h3]
      by_cases h4 : it.get "type" = some "movie"
      · rw [if_pos h4]
        rcases it.get "title" with _ | ttl
        · simp
        · by_cases ht : ttl = "" <;> simp [ht]
      · simp [h4]

/-- An item whose type is not `"episode"` leaves the episodes bucket alone. -/
theorem step4_episodes_eq (base : String) (s : St4) (it : Item)
    (h3 : ¬ it.get "type" = some "episode") :
    (step4 base s it).episodes = s.episodes := by
  unfold step4
  by_cases h1 : it.get "type" = some "track"
  · rw [if_pos h1]
    rcases trackIndex (it.get "index") with _ | idx
    · simp
    · rcases it.get "grandparentTitle" with _ | a'
      · simp
      · rcases it.get "parentTitle" with _ | b'
        · simp
        · by_cases hab : a' = "" ∨ b' = "" <;> simp [hab]
  · rw [if_neg h1]
    by_cases h2 : it.get "type" = some "photo"
    · rw [if_pos h2]
      rcases it.get "title" with _ | ttl
      · simp
      · by_cases ht : ttl = "" <;> simp [ht]
    · rw [if_neg h2, if_neg h3]
      by_cases h4 : it.get "type" = some "movie"
      · rw [if_pos h4]
        rcases it.get "title" with _ | ttl
        · simp
        · by_cases ht : ttl = "" <;> simp [ht]
      · simp [h4]

/-- An item whose type is not `"photo"` leaves the photos bucket alone. -/
theorem step4_photos_eq (base : String) (s : St4) (it : Item)
    (h2 : ¬ it.get "type" = some "photo") :
    (step4 base s it).photos = s.photos := by
  unfold step4
  by_cases h1 : it.get "type" = some "track"
  · rw [if_pos h1]
    rcases trackIndex (it.get "index") with _ | idx
    · simp
    · rcases it.get "grandparentTitle" with _ | a'
      · simp
      · rcases it.get "parentTitle" with _ | b'
        · simp
        · by_cases hab : a' = "" ∨ b' = "" <;> simp [hab]
  · rw [if_neg h1, if_neg h2]
    by_cases h3 : it.get "type" = some "episode"
    · rw [if_pos h3]
      rcases trackIndex (it.get "index") with _ | idx
      · simp
      · rcases it.get "grandparentTitle" with _ | a'
        · simp
        · rcases it.get "parentTitle" with _ | b'
          · simp
          · by_cases hab : a' = "" ∨ b' = "" <;> simp [hab]
    · rw [if_neg h3]
      by_cases h4 : it.get "type" = some "movie"
      · rw [if_pos h4]
        rcases it.get "title" with _ | ttl
        · simp
        · by_cases ht : ttl = "" <;> simp [ht]
      · simp [h4]

/-- An item whose type is not `"movie"` leaves the movies bucket alone. -/
theorem step4_movies_eq (base : String) (s : St4) (it : Item)
    (h4 : ¬ it.get "type" = some "movie") :
    (step4 base s it).movies = s.movies := by
  unfold step4
  by_cases h1 : it.get "type" = some "track"
  · rw [if_pos h1]
    rcases trackIndex (it.get "index") with _ | idx
    · simp
    · rcases it.get "grandparentTitle" with _ | a'
      · simp
      · rcases it.get "parentTitle" with _ | b'
        · simp
        · by_cases hab : a' = "" ∨ b' = "" <;> simp [hab]
  · rw [if_neg h1]
    by_cases h2 : it.get "type" = some "photo"
    · rw [if_pos h2]
      rcases it.get "title" with _ | ttl
      · simp
      · by_cases ht : ttl = "" <;> simp [ht]
    · rw [if_neg h2]
      by_cases h3 : it.get "type" = some "episode"
      · rw [if_pos h3]
        rcases trackIndex (it.get "index") with _ | idx
        · simp
        · rcases it.get "grandparentTitle" with _ | a'
          · simp
          · rcases it.get "parentTitle" with _ | b'
            · simp
            · by_cases hab : a' = "" ∨ b' = "" <;> simp [hab]
      · rw [if_neg h3]
        simp [h4]

theorem step4_tracks (base : String) (s : St4) (it : Item) (a b : String) :
    gListAt (step4 base s it).tracks a b =
      gListAt s.tracks a b ++ (if isTrackFor a b it then [tupleOf it] else []) := by
  by_cases h1 : it.get "type" = some "track"
  · unfold step4
    rw [if_pos h1]
    rcases hidx : trackIndex (it.get "index") with _ | idx
    · simp [isTrackFor, hidx]
    · rcases ha : it.get "grandparentTitle" with _ | a'
      · simp [isTrackFor, ha]
      · rcases hb : it.get "parentTitle" with _ | b'
        · simp [isTrackFor, hb]
        · by_cases hab : a' = "" ∨ b' = ""
          · have hf : isTrackFor a b it = false := by
              simp only [isTrackFor, ha, hb, decide_eq_false_iff_not]
              rintro ⟨-, -, h2, hane, h3, hbne⟩
              rcases hab with h | h
              · exact hane (Option.some.inj h2 ▸ h)
              · exact hbne (Option.some.inj h3 ▸ h)
            simp [hab, hf]
          · push_neg at hab
            simp only [hab.1, hab.2, or_self, if_false, false_or]
            by_cases haa : a' = a
            · subst haa
              by_cases hbb : b' = b
              · subst hbb
                have ht : isTrackFor a' b' it = true := by
                  simp [isTrackFor, h1, hidx, ha, hb, hab.1, hab.2]
                simp [hab.1, hab.2, gListAt_trackIns, ht, tupleOf, hidx]
              · have hf : isTrackFor a' b it = false := by
                  simp only [isTrackFor, hb, decide_eq_false_iff_not]
                  rintro ⟨-, -, -, -, h3, -⟩
                  exact hbb (Option.some.inj h3)
                simp [hab.1, hab.2, gListAt_trackIns, hf, hbb]
            · have hf : isTrackFor a b it = false := by
                simp only [isTrackFor, ha, decide_eq_false_iff_not]
                rintro ⟨-, -, h2, -⟩
                exact haa (Option.some.inj h2)
              simp [hab.1, hab.2, gListAt_trackIns, hf, haa]
  · have hf : isTrackFor a b it = false := by
      simp only [isTrackFor, decide_eq_false_iff_not]
      rintro ⟨h, -⟩
      exact h1 h
    rw [step4_tracks_eq base s it h1, hf]
    simp

theorem step4_episodes (base : String) (s : St4) (it : Item) (a b : String) :
    gListAt (step4 base s it).episodes a b =
      gListAt s.episodes a b ++ (if isEpisodeFor a b it then [tupleOf it] else []) := by
  by_cases h3 : it.get "type" = some "episode"
  · have h1 : ¬ it.get "type" = some "track" := by rw [h3]; simp
    have h2 : ¬ it.get "type" = some "photo" := by rw [h3]; simp
    unfold step4
    rw [if_neg h1, if_neg h2, if_pos h3]
    rcases hidx : trackIndex (it.get "index") with _ | idx
    · simp [isEpisodeFor, hidx]
    · rcases ha : it.get "grandparentTitle" with _ | a'
      · simp [isEpisodeFor, ha]
      · rcases hb : it.get "parentTitle" with _ | b'
        · simp [isEpisodeFor, hb]
        · by_cases hab : a' = "" ∨ b' = ""
          · have hf : isEpisodeFor a b it = false := by
              simp only [isEpisodeFor, ha, hb, decide_eq_false_iff_not]
              rintro ⟨-, -, h4, hane, h5, hbne⟩
              rcases hab with h | h
              · exact hane (Option.some.inj h4 ▸ h)
              · exact hbne (Option.some.inj h5 ▸ h)
            simp [hab, hf]
          · push_neg at hab
            simp only [hab.1, hab.2, or_self, if_false, false_or]
            by_cases haa : a' = a
            · subst haa
              by_cases hbb : b' = b
              · subst hbb
                have ht : isEpisodeFor a' b' it = true := by
                  simp [isEpisodeFor, h3, hidx, ha, hb, hab.1, hab.2]
                simp [hab.1, hab.2, gListAt_trackIns, ht, tupleOf, hidx]
              · have hf : isEpisodeFor a' b it = false := by
                  simp only [isEpisodeFor, hb, decide_eq_false_iff_not]
                  rintro ⟨-, -, -, -, h5, -⟩
                  exact hbb (Option.some.inj h5)
                simp [hab.1, hab.2, gListAt_trackIns, hf, hbb]
            · have hf : isEpisodeFor a b it = false := by
                simp only [isEpisodeFor, ha, decide_eq_false_iff_not]
                rintro ⟨-, -, h4, -⟩
                exact haa (Option.some.inj h4)
              simp [hab.1, hab.2, gListAt_trackIns, hf, haa]
  · have hf : isEpisodeFor a b it = false := by
      simp only [isEpisodeFor, decide_eq_false_iff_not]
      rintro ⟨h, -⟩
      exact h3 h
    rw [step4_episodes_eq base s it h3, hf]
    simp

theorem step4_photosGet (base : String) (s : St4) (it : Item) (ttl : String) :
    alGet (step4 base s it).photos ttl =
      if isPhotoFor ttl it then some (photoEntry base it) else alGet s.photos ttl := by
  by_cases h2 : it.get "type" = some "photo"
  · have h1 : ¬ it.get "type" = some "track" := by rw [h2]; simp
    unfold step4
    rw [if_neg h1, if_pos h2]
    rcases hti : it.get "title" with _ | t0
    · simp [isPhotoFor, hti]
    · by_cases ht : t0 = ""
      · have hf : isPhotoFor ttl it = false := by
          simp only [isPhotoFor, hti, decide_eq_false_iff_not]
          rintro ⟨-, h4, htn⟩
          exact htn (Option.some.inj h4 ▸ ht)
        simp [ht, hf]
      · simp only [ht, if_false, alGet_alSet]
        by_cases htt : t0 = ttl
        · subst htt
          have htr : isPhotoFor t0 it = true := by
            simp [isPhotoFor, h2, hti, ht]
          simp [htr]
        · have hf : isPhotoFor ttl it = false := by
            simp only [isPhotoFor, hti, decide_eq_false_iff_not]
            rintro ⟨-, h4, -⟩
            exact htt (Option.some.inj h4)
          simp [htt, hf]
  · have hf : isPhotoFor ttl it = false := by
      simp only [isPhotoFor, decide_eq_false_iff_not]
      rintro ⟨h, -⟩
      exact h2 h
    rw [step4_photos_eq base s it h2, hf]
    simp

theorem step4_moviesGet (base : String) (s : St4) (it : Item) (ttl : String) :
    alGet (step4 base s it).movies ttl =
      if isMovieFor ttl it then some (movieEntry it) else alGet s.movies ttl := by
  by_cases h4 : it.get "type" = some "movie"
  · have h1 : ¬ it.get "type" = some "track" := by rw [h4]; simp
    have h2 : ¬ it.get "type" = some "photo" := by rw [h4]; simp
    have h3 : ¬ it.get "type" = some "episode" := by rw [h4]; simp
    unfold step4
    rw [if_neg h1, if_neg h2, if_neg h3, if_pos h4]
    rcases hti : it.get "title" with _ | t0
    · simp [isMovieFor, hti]
    · by_cases ht : t0 = ""
      · have hf : isMovieFor ttl it = false := by
          simp only [isMovieFor, hti, decide_eq_false_iff_not]
          rintro ⟨-, h5, htn⟩
          exact htn (Option.some.inj h5 ▸ ht)
        simp [ht, hf]
      · simp only [ht, if_false, alGet_alSet]
        by_cases htt : t0 = ttl
        · subst htt
          have htr : isMovieFor t0 it = true := by
            simp [isMovieFor, h4, hti, ht]
          simp [htr]
        · have hf : isMovieFor ttl it = false := by
            simp only [isMovieFor, hti, decide_eq_false_iff_not]
            rintro ⟨-, h5, -⟩
            exact htt (Option.some.inj h5)
          simp [htt, hf]
  · have hf : isMovieFor ttl it = false := by
      simp only [isMovieFor, decide_eq_false_iff_not]
      rintro ⟨h, -⟩
      exact h4 h
    rw [step4_movies_eq base s it h4, hf]
    simp

theorem fold4_tracks (base : String) (data : List Item) :
    ∀ (s : St4) (a b : String),
      gListAt (fold4 base s data).tracks a b =
        gListAt s.tracks a b ++ (data.filter (isTrackFor a b)).map tupleOf := by
  induction data with
  | nil => intro s a b; simp [fold4]
  | cons it rest ih =>
      intro s a b
      show gListAt (fold4 base (step4 base s it) rest).tracks a b = _
      rw [ih, step4_tracks, List.filter_cons]
      by_cases h : isTrackFor a b it <;> simp [h]

theorem fold4_episodes (base : String) (data : List Item) :
    ∀ (s : St4) (a b : String),
      gListAt (fold4 base s data).episodes a b =
        gListAt s.episodes a b ++ (data.filter (isEpisodeFor a b)).map tupleOf := by
  induction data with
  | nil => intro s a b; simp [fold4]
  | cons it rest ih =>
      intro s a b
      show gListAt (fold4 base (step4 base s it) rest).episodes a b = _
      rw [ih, step4_episodes, List.filter_cons]
      by_cases h : isEpisodeFor a b it <;> simp [h]

theorem foldl_lastWith (p : Item → Bool) (data : List Item) :
    ∀ acc : Option Item,
      data.foldl (fun acc it => if p it then some it else acc) acc =
        (lastWith p data).elim acc some := by
  induction data with
  | nil => intro acc; rfl
  | cons it rest ih =>
      intro acc
      show rest.foldl _ (if p it then some it else acc) = _
      rw [ih]
      have h2 : lastWith p (it :: rest) =
          (lastWith p rest).elim (if p it then some it else none) some := by
        show rest.foldl _ (if p it then some it else none) = _
        rw [ih]
      rw [h2]
      rcases lastWith p rest with _ | x
      · by_cases h : p it <;> simp [h]
      · rfl

theorem lastWith_cons (p : Item → Bool) (it : Item) (rest : List Item) :
    lastWith p (it :: rest) =
      (lastWith p rest).elim (if p it then some it else none) some := by
  show rest.foldl _ (if p it then some it else none) = _
  rw [foldl_lastWith]

theorem fold4_photosGet (base : String) (data : List Item) :
    ∀ (s : St4) (ttl : String),
      alGet (fold4 base s data).photos ttl =
        (lastWith (isPhotoFor ttl) data).elim (alGet s.photos ttl)
          (fun it => some (photoEntry base it)) := by
  induction data with
  | nil => intro s ttl; rfl
  | cons it rest ih =>
      intro s ttl
      show alGet (fold4 base (step4 base s it) rest).photos ttl = _
      rw [ih, lastWith_cons]
      rcases lastWith (isPhotoFor ttl) rest with _ | x
      · rw [step4_photosGet]
        by_cases h : isPhotoFor ttl it <;> simp [h]
      · rfl

theorem fold4_moviesGet (base : String) (data : List Item) :
    ∀ (s : St4) (ttl : String),
      alGet (fold4 base s data).movies ttl =
        (lastWith (isMovieFor ttl) data).elim (alGet s.movies ttl)
          (fun it => some (movieEntry it)) := by
  induction data with
  | nil => intro s ttl; rfl
  | cons it rest ih =>
      intro s ttl
      show alGet (fold4 base (step4 base s it) rest).movies ttl = _
      rw [ih, lastWith_cons]
      rcases lastWith (isMovieFor ttl) rest with _ | x
      · rw [step4_moviesGet]
        by_cases h : isMovieFor ttl it <;> simp [h]
      · rfl

theorem step4_photos_nodup (base : String) (s : St4) (it : Item)
    (hd : (s.photos.map Prod.fst).Nodup) :
    ((step4 base s it).photos.map Prod.fst).Nodup := by
  by_cases h2 : it.get "type" = some "photo"
  · have h1 : ¬ it.get "type" = some "track" := by rw [h2]; simp
    unfold step4
    rw [if_neg h1, if_pos h2]
    rcases it.get "title" with _ | t0
    · exact hd
    · by_cases ht : t0 = ""
      · simpa [ht] using hd
      · simp only [ht, if_false]
        exact nodup_keys_alSet _ _ _ hd
  · rw [step4_photos_eq base s it h2]
    exact hd

theorem step4_movies_nodup (base : String) (s : St4) (it : Item)
    (hd : (s.movies.map Prod.fst).Nodup) :
    ((step4 base s it).movies.map Prod.fst).Nodup := by
  by_cases h4 : it.get "type" = some "movie"
  · have h1 : ¬ it.get "type" = some "track" := by rw [h4]; simp
    have h2 : ¬ it.get "type" = some "photo" := by rw [h4]; simp
    have h3 : ¬ it.get "type" = some "episode" := by rw [h4]; simp
    unfold step4
    rw [if_neg h1, if_neg h2, if_neg h3, if_pos h4]
    rcases it.get "title" with _ | t0
    · exact hd
    · by_cases ht : t0 = ""
      · simpa [ht] using hd
      · simp only [ht, if_false]
        exact nodup_keys_alSet _ _ _ hd
  · rw [step4_movies_eq base s it h4]
    exact hd

theorem fold4_photos_nodup (base : String) (data : List Item) :
    ∀ s : St4, (s.photos.map Prod.fst).Nodup →
      ((fold4 base s data).photos.map Prod.fst).Nodup := by
  induction data with
  | nil => intro s hd; exact hd
  | cons it rest ih =>
      intro s hd
      exact ih (step4 base s it) (step4_photos_nodup base s it hd)

theorem fold4_movies_nodup (base : String) (data : List Item) :
    ∀ s : St4, (s.movies.map Prod.fst).Nodup →
      ((fold4 base s data).movies.map Prod.fst).Nodup := by
  induction data with
  | nil => intro s hd; exact hd
  | cons it rest ih =>
      intro s hd
      exact ih (step4 base s it) (step4_movies_nodup base s it hd)

theorem groupList_st4_tracks (s : St4) (a b : String) :
    groupList (st4Pair s).1 "tracks" a b = gListAt s.tracks a b := by
  rcases hga : alGet s.tracks a with _ | ad
  · simp [groupList, st4Pair, mk4, alGet, gListAt, hga]
  · rcases hgb : alGet ad b with _ | l <;>
      simp [groupList, st4Pair, mk4, alGet, gListAt, hga, hgb]

theorem groupList_st4_episodes (s : St4) (a b : String) :
    groupList (st4Pair s).1 "episodes" a b = gListAt s.episodes a b := by
  rcases hga : alGet s.episodes a with _ | ad
  · simp [groupList, st4Pair, mk4, alGet, gListAt, hga]
  · rcases hgb : alGet ad b with _ | l <;>
      simp [groupList, st4Pair, mk4, alGet, gListAt, hga, hgb]

theorem flatGet_st4_photos (s : St4) (ttl : String) :
    flatGet (st4Pair s).1 "photos" ttl = alGet s.photos ttl := by
  simp [flatGet, st4Pair, mk4, alGet]

theorem flatGet_st4_movies (s : St4) (ttl : String) :
    flatGet (st4Pair s).1 "movies" ttl = alGet s.movies ttl := by
  simp [flatGet, st4Pair, mk4, alGet]

theorem flatList_st4_photos (s : St4) :
    flatList (st4Pair s).1 "photos" = s.photos := by
  simp [flatList, st4Pair, mk4, alGet]

theorem flatList_st4_movies (s : St4) :
    flatList (st4Pair s).1 "movies" = s.movies := by
  simp [flatList, st4Pair, mk4, alGet]

theorem lastWith_append (p : Item → Bool) (l1 l2 : List Item) :
    lastWith p (l1 ++ l2) = (lastWith p l2).elim (lastWith p l1) some := by
  show (l1 ++ l2).foldl _ none = _
  rw [List.foldl_append, foldl_lastWith]
  rfl

theorem lastWith_all_false (p : Item → Bool) (l : List Item)
    (h : ∀ x ∈ l, p x = false) : lastWith p l = none := by
  induction l with
  | nil => rfl
  | cons it rest ih =>
      rw [lastWith_cons, ih (fun x hx => h x (List.mem_cons_of_mem it hx))]
      simp [h it (List.mem_cons_self it rest)]

/-- C1: classifying a singleton list holding a track item with
`grandparentTitle="A"`, `parentTitle="B"`, `title="T"`, `index="3"` yields
`tracks["A"]["B"] == [("T", 3, itemId)]`, the string index converted to
the integer 3 inside the 3-tuple. -/
theorem C1_track_index_conversion (base : String) (it : Item)
    (h1 : it.get "type" = some "track")
    (h2 : it.get "grandparentTitle" = some "A")
    (h3 : it.get "parentTitle" = some "B")
    (h4 : it.get "title" = some "T")
    (h5 : it.get "index" = some "3") :
    groupList (parse_playlist_data base [it]).1 "tracks" "A" "B" =
      [(some "T", 3, it.get "playlistItemID")] := by
  rw [parse_eq_fold4, groupList_st4_tracks, fold4_tracks]
  have hidx : trackIndex (it.get "index") = some 3 := by rw [h5]; rfl
  have hT : isTrackFor "A" "B" it = true := by
    simp [isTrackFor, h1, h2, h3, hidx]
  simp [hT, tupleOf, h4, hidx, gListAt, alGet]

/-- C1 witness: a concrete track item with those attributes. -/
theorem C1_track_index_conversion_witness :
    groupList (parse_playlist_data "http://host"
      [[("type", some "track"), ("grandparentTitle", some "A"),
        ("parentTitle", some "B"), ("title", some "T"), ("index", some "3"),
        ("playlistItemID", some "item-17")]]).1 "tracks" "A" "B" =
      [(some "T", 3, some "item-17")] :=
  C1_track_index_conversion "http://host"
    [("type", some "track"), ("grandparentTitle", some "A"),
     ("parentTitle", some "B"), ("title", some "T"), ("index", some "3"),
     ("playlistItemID", some "item-17")] rfl rfl rfl rfl rfl

/-- C2: classification is order-preserving — every `tracks[a][b]` and
`episodes[a][b]` sub-list equals the tuples of the contributing items in
exactly source order (a filter-map of the input list). -/
theorem C2_order_preserving (base : String) (data : List Item) (a b : String) :
    groupList (parse_playlist_data base data).1 "tracks" a b =
      (data.filter (isTrackFor a b)).map tupleOf ∧
    groupList (parse_playlist_data base data).1 "episodes" a b =
      (data.filter (isEpisodeFor a b)).map tupleOf := by
  rw [parse_eq_fold4, groupList_st4_tracks, groupList_st4_episodes,
    fold4_tracks, fold4_episodes]
  constructor <;> simp [gListAt, alGet]

/-- C5: classifying the empty list yields exactly the four fixed keys
each bound to an empty bucket, and every result has exactly those four
top-level keys in that order. -/
theorem C5_four_fixed_keys (base : String) :
    parse_playlist_data base [] = (initSorted, []) ∧
    ∀ data : List Item, (parse_playlist_data base data).1.map Prod.fst =
      ["tracks", "photos", "episodes", "movies"] := by
  refine ⟨rfl, fun data => ?_⟩
  rw [parse_eq_fold4]
  rfl

/-- C10: the photos and movies buckets are keyed by title with
last-writer-wins semantics — when an item is the last photo (movie) item
carrying a given non-empty title, the bucket holds exactly one entry for
that title, with that item's attributes. -/
theorem C10_last_writer_wins (base : String) (l1 l2 : List Item) (it : Item)
    (t : String) :
    (it.get "type" = some "photo" → it.get "title" = some t → t ≠ "" →
      (∀ it2 ∈ l2, isPhotoFor t it2 = false) →
      flatGet (parse_playlist_data base (l1 ++ it :: l2)).1 "photos" t =
        some (photoEntry base it) ∧
      ((flatList (parse_playlist_data base (l1 ++ it :: l2)).1 "photos").map
        Prod.fst).count t = 1) ∧
    (it.get "type" = some "movie" → it.get "title" = some t → t ≠ "" →
      (∀ it2 ∈ l2, isMovieFor t it2 = false) →
      flatGet (parse_playlist_data base (l1 ++ it :: l2)).1 "movies" t =
        some (movieEntry it) ∧
      ((flatList (parse_playlist_data base (l1 ++ it :: l2)).1 "movies").map
        Prod.fst).count t = 1) := by
  constructor
  · intro hty hti htne hl2
    have hp : isPhotoFor t it = true := by simp [isPhotoFor, hty, hti, htne]
    have hlast : lastWith (isPhotoFor t) (l1 ++ it :: l2) = some it := by
      rw [lastWith_append, lastWith_cons, lastWith_all_false _ _ hl2]
      simp [hp]
    have hget : alGet (fold4 base ⟨[], [], [], [], []⟩ (l1 ++ it :: l2)).photos t =
        some (photoEntry base it) := by
      rw [fold4_photosGet, hlast]
      rfl
    constructor
    · rw [parse_eq_fold4, flatGet_st4_photos]
      exact hget
    · have hnodup := fold4_photos_nodup base (l1 ++ it :: l2) ⟨[], [], [], [], []⟩
        (by simp)
      rw [parse_eq_fold4, flatList_st4_photos]
      exact count_key_of_alGet _ _ _ hnodup hget
  · intro hty hti htne hl2
    have hp : isMovieFor t it = true := by simp [isMovieFor, hty, hti, htne]
    have hlast : lastWith (isMovieFor t) (l1 ++ it :: l2) = some it := by
      rw [lastWith_append, lastWith_cons, lastWith_all_false _ _ hl2]
      simp [hp]
    have hget : alGet (fold4 base ⟨[], [], [], [], []⟩ (l1 ++ it :: l2)).movies t =
        some (movieEntry it) := by
      rw [fold4_moviesGet, hlast]
      rfl
    constructor
    · rw [parse_eq_fold4, flatGet_st4_movies]
      exact hget
    · have hnodup := fold4_movies_nodup base (l1 ++ it :: l2) ⟨[], [], [], [], []⟩
        (by simp)
      rw [parse_eq_fold4, flatList_st4_movies]
      exact count_key_of_alGet _ _ _ hnodup hget

/-- C10 witness: two photo items with the same title `"P"`; the bucket
keeps one entry holding the second item's attributes. -/
theorem C10_last_writer_wins_witness :
    flatGet (parse_playlist_data "http://h"
      ([[("type", some "photo"), ("title", some "P"), ("file", some "f1")]] ++
        [("type", some "photo"), ("title", some "P"), ("file", some "f2"),
          ("playlistItemID", some "9")] :: [])).1 "photos" "P" =
      some (photoEntry "http://h"
        [("type", some "photo"), ("title", some "P"), ("file", some "f2"),
         ("playlistItemID", some "9")]) ∧
    ((flatList (parse_playlist_data "http://h"
      ([[("type", some "photo"), ("title", some "P"), ("file", some "f1")]] ++
        [("type", some "photo"), ("title", some "P"), ("file", some "f2"),
          ("playlistItemID", some "9")] :: [])).1 "photos").map Prod.fst).count "P" = 1 :=
  (C10_last_writer_wins "http://h"
    [[("type", some "photo"), ("title", some "P"), ("file", some "f1")]] []
    [("type", some "photo"), ("title", some "P"), ("file", some "f2"),
     ("playlistItemID", some "9")] "P").1 rfl rfl (by decide)
    (fun it2 h => absurd h (List.not_mem_nil it2))

end api_client

namespace plex_api_client

theorem dstep_photo_skip (base : Option String) (st : DSorted × Log) (it : Item)
    (h1 : it.get "type" = some "photo") (h2 : truthy (it.get "title") = false) :
    dstep base st it = (st.1, st.2 ++ [LogLevel.warning]) := by
  have hnt : ¬ it.get "type" = some "track" := by rw [h1]; simp
  unfold dstep dstep1 d_photo
  rw [if_neg hnt, if_pos h1]
  rcases hti : it.get "title" with _ | t0
  · rfl
  · have ht : t0 = "" := by
      by_contra hne
      rw [hti] at h2
      simp [truthy, hne] at h2
    subst ht
    simp

theorem dfoldl_fst (base : Option String) (data : List Item) :
    ∀ (sd : DSorted) (lg lg' : Log),
      (data.foldl (dstep base) (sd, lg)).1 = (data.foldl (dstep base) (sd, lg')).1 := by
  induction data with
  | nil => intro sd lg lg'; rfl
  | cons it rest ih =>
      intro sd lg lg'
      show (rest.foldl _ (dstep base (sd, lg) it)).1 = _
      exact ih (dstep1 base sd it).1 _ _

/-- C4: in the module-level `parse_playlist_data` of `plex_api_client.py`,
a photo item whose title is missing or empty contributes exactly one
warning log entry: the buckets are unchanged (the item is omitted from
`photos`), a warning — not an error, so no exception — is logged, and the
remaining items are processed as if the item were absent. -/
theorem C4_photo_missing_title (base : Option String) (l1 l2 : List Item)
    (it : Item) (h1 : it.get "type" = some "photo")
    (h2 : truthy (it.get "title") = false) :
    parse_playlist_data base (l1 ++ it :: l2) =
      l2.foldl (dstep base) ((parse_playlist_data base l1).1,
        (parse_playlist_data base l1).2 ++ [LogLevel.warning]) ∧
    (parse_playlist_data base (l1 ++ it :: l2)).1 =
      (parse_playlist_data base (l1 ++ l2)).1 := by
  have hstep : ∀ st : DSorted × Log, dstep base st it =
      (st.1, st.2 ++ [LogLevel.warning]) :=
    fun st => dstep_photo_skip base st it h1 h2
  constructor
  · show (l1 ++ it :: l2).foldl (dstep base) (dInit, []) = _
    rw [List.foldl_append, List.foldl_cons, hstep]
    rfl
  · show ((l1 ++ it :: l2).foldl (dstep base) (dInit, [])).1 =
      ((l1 ++ l2).foldl (dstep base) (dInit, [])).1
    rw [List.foldl_append, List.foldl_cons, hstep, List.foldl_append]
    exact dfoldl_fst base l2 _ _ _

/-- C4 witness: a concrete photo item with no title key. -/
theorem C4_photo_missing_title_witness :
    (plex_api_client.parse_playlist_data (some "http://h")
        ([] ++ [("type", some "photo")] :: [])).1 =
      (plex_api_client.parse_playlist_data (some "http://h") ([] ++ [])).1 :=
  (C4_photo_missing_title (some "http://h") [] [] [("type", some "photo")]
    rfl rfl).2

end plex_api_client

namespace api_client

/-- C3: `extract_playlists` returns exactly the projections of the
`Playlist` descendants whose `ratingKey`, `title` and `playlistType` are
all present and non-empty, and no partial record (a missing or empty
component) ever appears in the result. -/
theorem C3_extract_playlists_complete (root : Element) :
    extract_playlists (some root) =
      ((root.findall "Playlist").filter (fun pl =>
          truthy (pl.get "ratingKey") && truthy (pl.get "title") &&
          truthy (pl.get "playlistType"))).map
        (fun pl => (pl.get "ratingKey", pl.get "title", pl.get "playlistType")) ∧
    ∀ x ∈ extract_playlists (some root), ∃ k t ty,
      x = (some k, some t, some ty) ∧ k ≠ "" ∧ t ≠ "" ∧ ty ≠ "" := by
  refine ⟨rfl, fun x hx => ?_⟩
  obtain ⟨pl, hpl, rfl⟩ := List.mem_map.mp hx
  have hp := (List.mem_filter.mp hpl).2
  simp only [Bool.and_eq_true] at hp
  obtain ⟨⟨hk, ht⟩, hty⟩ := hp
  obtain ⟨k, hk1, hk2⟩ := (truthy_iff _).mp hk
  obtain ⟨t, ht1, ht2⟩ := (truthy_iff _).mp ht
  obtain ⟨ty, hty1, hty2⟩ := (truthy_iff _).mp hty
  exact ⟨k, t, ty, by rw [hk1, ht1, hty1], hk2, ht2, hty2⟩

/-- C3 witness: a tree with one complete and one partial playlist. -/
theorem C3_extract_playlists_complete_witness :
    ∃ k t ty, ((some "1", some "My", some "audio") :
        Option String × Option String × Option String) =
      (some k, some t, some ty) ∧ k ≠ "" ∧ t ≠ "" ∧ ty ≠ "" :=
  (C3_extract_playlists_complete (Element.mk "MediaContainer" []
      [Element.mk "Playlist"
        [("ratingKey", "1"), ("title", "My"), ("playlistType", "audio")] [],
       Element.mk "Playlist" [("ratingKey", "2"), ("title", "")] []])).2
    (some "1", some "My", some "audio") (by decide)

/-- C9: a `Video` element whose `type` attribute is neither `"episode"`
nor `"movie"` makes `_extract_video_data` fall off the end and return
`None`, so `extract_playlist_items` on a `"video"` playlist yields a list
containing a null entry in place of an item dict. -/
theorem C9_video_extractor_none (root : Element) (v : Element)
    (hv : v ∈ root.findall "Video")
    (h1 : ¬ v.get "type" = some "episode") (h2 : ¬ v.get "type" = some "movie") :
    _extract_video_data v = none ∧
    (none : Option Item) ∈ extract_playlist_items (some root) (some "video") := by
  have hnone : _extract_video_data v = none := by
    unfold _extract_video_data _safe_get
    rw [if_neg h1, if_neg h2]
  refine ⟨hnone, ?_⟩
  have heq : extract_playlist_items (some root) (some "video") =
      (root.findall "Video").map _extract_video_data := rfl
  rw [heq]
  exact List.mem_map.mpr ⟨v, hv, hnone⟩

/-- C9 witness: a tree with a single `Video` of type `"clip"`. -/
theorem C9_video_extractor_none_witness :
    _extract_video_data (Element.mk "Video" [("type", "clip")] []) = none ∧
    (none : Option Item) ∈ extract_playlist_items
      (some (Element.mk "MediaContainer" []
        [Element.mk "Video" [("type", "clip")] []])) (some "video") :=
  C9_video_extractor_none
    (Element.mk "MediaContainer" [] [Element.mk "Video" [("type", "clip")] []])
    (Element.mk "Video" [("type", "clip")] [])
    (List.mem_singleton.mpr rfl) (by decide) (by decide)

/-- C6 counterexample: a 304 response (non-2xx, but below the 400
threshold of `raise_for_status`) with a well-formed XML body makes
`_request "GET"` return the parsed tree — not the absent value the claim
requires for every non-2xx status. -/
theorem C6_counterexample :
    ((_request "GET" (HTTPOutcome.success 304
        { xml := some (Element.mk "MediaContainer" [] []), json := none })).1).isSome
      = true ∧
    ¬ (200 ≤ 304 ∧ 304 < 300) := ⟨rfl, by decide⟩

/-- C6 (amended): `_request "GET"` returns either a parsed element tree
or the absent value; it returns absent — with exactly one logged error —
precisely on network failure, a status in `[400, 600)` (what
`raise_for_status` raises on), or a malformed XML body; and it never
raises (it is a total function). -/
theorem C6_request_get (outcome : HTTPOutcome) :
    (∀ r lg, _request "GET" outcome = (some r, lg) → ∃ e, r = ReqResult.elem e) ∧
    ((_request "GET" outcome).1 = none ↔
      outcome = HTTPOutcome.netError ∨
        ∃ st body, outcome = HTTPOutcome.success st body ∧
          ((400 ≤ st ∧ st < 600) ∨ body.xml = none)) ∧
    ((_request "GET" outcome).1 = none →
      (_request "GET" outcome).2 = [LogLevel.error]) ∧
    ((_request "GET" outcome).1 ≠ none → (_request "GET" outcome).2 = []) := by
  rcases outcome with _ | ⟨st, body⟩
  · refine ⟨fun r lg h => ?_, ?_, fun _ => rfl, fun h => absurd rfl h⟩
    · exact absurd (congrArg Prod.fst h) (by simp [_request])
    · simp [_request]
  · by_cases hst : 400 ≤ st ∧ st < 600
    · have hreq : _request "GET" (HTTPOutcome.success st body) =
          (none, [LogLevel.error]) := by
        simp [_request, hst]
      rw [hreq]
      refine ⟨fun r lg h => ?_, ?_, fun _ => rfl, fun h => absurd rfl h⟩
      · exact absurd (congrArg Prod.fst h) (by simp)
      · exact iff_of_true rfl (Or.inr ⟨st, body, rfl, Or.inl hst⟩)
    · rcases hx : body.xml with _ | e
      · have hreq : _request "GET" (HTTPOutcome.success st body) =
            (none, [LogLevel.error]) := by
          simp [_request, hst, hx]
        rw [hreq]
        refine ⟨fun r lg h => ?_, ?_, fun _ => rfl, fun h => absurd rfl h⟩
        · exact absurd (congrArg Prod.fst h) (by simp)
        · exact iff_of_true rfl (Or.inr ⟨st, body, rfl, Or.inr hx⟩)
      · have hreq : _request "GET" (HTTPOutcome.success st body) =
            (some (ReqResult.elem e), []) := by
          simp [_request, hst, hx]
        rw [hreq]
        refine ⟨fun r lg h => ?_, ?_, fun h => absurd h (by simp), fun _ => rfl⟩
        · exact ⟨e, (Option.some.inj (congrArg Prod.fst h)).symm⟩
        · refine iff_of_false (by simp) ?_
          rintro (h | ⟨st', body', heq, hcase⟩)
          · exact HTTPOutcome.noConfusion h
          · injection heq with h1 h2
            subst h1; subst h2
            rcases hcase with h | h
            · exact hst h
            · rw [hx] at h; exact Option.noConfusion h

/-- C6 witness: a 500 response logs one error with an absent result. -/
theorem C6_request_get_witness :
    (_request "GET" (HTTPOutcome.success 500 { xml := none, json := none })).2 =
      [LogLevel.error] :=
  (C6_request_get (HTTPOutcome.success 500 { xml := none, json := none })).2.2.1 rfl

/-- C7 counterexample: a 201 response whose body is not valid JSON makes
`create_playlist` raise (the `response.json()` call is outside every
`try`), so an exception does escape to the caller. -/
theorem C7_counterexample :
    (create_playlist (fun _fields => HTTPOutcome.success 201 { xml := none, json := none })
      "t" "audio" []).1 = Except.error () := rfl

/-- C7 (amended): `create_playlist` returns the JSON-decoded body exactly
when the POST response has status 201 and the body decodes; on a 201
response whose body is not valid JSON the decoding exception escapes to
the caller; a 500 response yields the absent value with a logged error. -/
theorem C7_create_playlist (net : List (String × String) → HTTPOutcome)
    (title media_type : String) (item_uris : List String) :
    (∀ v, (create_playlist net title media_type item_uris).1 = Except.ok (some v) ↔
      ∃ body, net (postFields title media_type item_uris) =
        HTTPOutcome.success 201 body ∧ body.json = some v) ∧
    ((create_playlist net title media_type item_uris).1 = Except.error () ↔
      ∃ body, net (postFields title media_type item_uris) =
        HTTPOutcome.success 201 body ∧ body.json = none) ∧
    (∀ body, net (postFields title media_type item_uris) =
        HTTPOutcome.success 500 body →
      create_playlist net title media_type item_uris =
        (Except.ok none, [LogLevel.error, LogLevel.error])) := by
  have hcp : ∀ oc, net (postFields title media_type item_uris) = oc →
      create_playlist net title media_type item_uris =
      (match _request "POST" oc with
       | (some (.rawResp st body), lg) =>
           if st = 201 then
             match body.json with
             | some v => (.ok (some v), lg ++ [LogLevel.info])
             | none => (.error (), lg ++ [LogLevel.info])
           else (.ok none, lg ++ [LogLevel.error])
       | (some (.elem _), lg) => (.error (), lg)
       | (none, lg) => (.ok none, lg ++ [LogLevel.error])) := by
    intro oc hoc
    rw [← hoc]
    rfl
  rcases hoc : net (postFields title media_type item_uris) with _ | ⟨st, body⟩
  · have hval : create_playlist net title media_type item_uris =
        (Except.ok none, [LogLevel.error, LogLevel.error]) := hcp _ hoc
    rw [hval]
    refine ⟨fun v => ?_, ?_, fun body h => HTTPOutcome.noConfusion h⟩
    · refine iff_of_false (fun h => Option.noConfusion (Except.ok.inj h)) ?_
      rintro ⟨body', heq, -⟩
      exact HTTPOutcome.noConfusion heq
    · refine iff_of_false (fun h => Except.noConfusion h) ?_
      rintro ⟨body', heq, -⟩
      exact HTTPOutcome.noConfusion heq
  · by_cases hst : 400 ≤ st ∧ st < 600
    · have h201 : ¬ st = 201 := by omega
      have hreq : _request "POST" (HTTPOutcome.success st body) =
          (none, [LogLevel.error]) := by simp [_request, hst]
      have hval : create_playlist net title media_type item_uris =
          (Except.ok none, [LogLevel.error, LogLevel.error]) := by
        rw [hcp _ hoc, hreq]
        rfl
      rw [hval]
      refine ⟨fun v => ?_, ?_, fun body' h => ?_⟩
      · refine iff_of_false (fun h => Option.noConfusion (Except.ok.inj h)) ?_
        rintro ⟨body', heq, -⟩
        injection heq with hh1 hh2
        exact h201 hh1
      · refine iff_of_false (fun h => Except.noConfusion h) ?_
        rintro ⟨body', heq, -⟩
        injection heq with hh1 hh2
        exact h201 hh1
      · rfl
    · have hreq : _request "POST" (HTTPOutcome.success st body) =
          (some (ReqResult.rawResp st body), []) := by simp [_request, hst]
      by_cases h201 : st = 201
      · subst h201
        rcases hj : body.json with _ | v
        · have hval : create_playlist net title media_type item_uris =
              (Except.error (), [LogLevel.info]) := by
            rw [hcp _ hoc, hreq]
            simp [hj]
          rw [hval]
          refine ⟨fun v => ?_, ?_, fun body' h => ?_⟩
          · refine iff_of_false (fun h => Except.noConfusion h) ?_
            rintro ⟨body', heq, hjs⟩
            injection heq with hh1 hh2
            rw [← hh2, hj] at hjs
            exact Option.noConfusion hjs
          · exact iff_of_true rfl ⟨body, rfl, hj⟩
          · injection h with hh1 hh2
            exact absurd hh1 (by decide)
        · have hval : create_playlist net title media_type item_uris =
              (Except.ok (some v), [LogLevel.info]) := by
            rw [hcp _ hoc, hreq]
            simp [hj]
          rw [hval]
          refine ⟨fun v' => ?_, ?_, fun body' h => ?_⟩
          · constructor
            · intro h
              have hv : v = v' := Option.some.inj (Except.ok.inj h)
              exact ⟨body, rfl, by rw [hj, hv]⟩
            · rintro ⟨body', heq, hjs⟩
              injection heq with hh1 hh2
              rw [← hh2, hj] at hjs
              rw [Option.some.inj hjs]
          · refine iff_of_false (fun h => Except.noConfusion h) ?_
            rintro ⟨body', heq, hjs⟩
            injection heq with hh1 hh2
            rw [← hh2, hj] at hjs
            exact Option.noConfusion hjs
          · injection h with hh1 hh2
            exact absurd hh1 (by decide)
      · have hval : create_playlist net title media_type item_uris =
            (Except.ok none, [LogLevel.error]) := by
          rw [hcp _ hoc, hreq]
          simp [h201]
        rw [hval]
        refine ⟨fun v => ?_, ?_, fun body' h => ?_⟩
        · refine iff_of_false (fun h => Option.noConfusion (Except.ok.inj h)) ?_
          rintro ⟨body', heq, -⟩
          injection heq with hh1 hh2
          exact h201 hh1
        · refine iff_of_false (fun h => Except.noConfusion h) ?_
          rintro ⟨body', heq, -⟩
          injection heq with hh1 hh2
          exact h201 hh1
        · injection h with hh1 hh2
          rw [hh1] at hst
          exact absurd ⟨by norm_num, by norm_num⟩ hst

/-- C7 witness: a 201 response with a decodable body yields the decoded
value. -/
theorem C7_create_playlist_witness :
    (create_playlist (fun _fields => HTTPOutcome.success 201 { xml := none, json := some "J" })
      "t" "audio" []).1 = Except.ok (some "J") :=
  ((C7_create_playlist
      (fun _fields => HTTPOutcome.success 201 { xml := none, json := some "J" })
      "t" "audio" []).1 "J").mpr ⟨{ xml := none, json := some "J" }, rfl, rfl⟩

/-- C8: construction raises a `ValueError` as soon as the base URL or the
token is absent (more generally, falsy), and succeeds exactly when both
are present and non-empty — so success implies both are present. -/
theorem C8_construction (config_instance : PlexConfig) :
    ((config_instance.baseurl = none ∨ config_instance.token = none) →
      ∃ msg, PlexAPIClient.init config_instance = Except.error msg) ∧
    ((∃ c, PlexAPIClient.init config_instance = Except.ok c) ↔
      truthy config_instance.baseurl = true ∧ truthy config_instance.token = true) ∧
    ((∃ c, PlexAPIClient.init config_instance = Except.ok c) →
      config_instance.baseurl ≠ none ∧ config_instance.token ≠ none) := by
  by_cases hb : truthy config_instance.baseurl = true
  · by_cases ht : truthy config_instance.token = true
    · have hok : PlexAPIClient.init config_instance =
          Except.ok { plex_base_url := config_instance.baseurl,
                      api_key := config_instance.token,
                      headers := [("X-Plex-Token", config_instance.token)] } := by
        simp [PlexAPIClient.init, hb, ht]
      refine ⟨fun h => ?_, ?_, fun _ => ⟨?_, ?_⟩⟩
      · rcases h with h | h
        · rw [h] at hb; exact absurd hb (by simp [truthy])
        · rw [h] at ht; exact absurd ht (by simp [truthy])
      · exact iff_of_true ⟨_, hok⟩ ⟨hb, ht⟩
      · intro h; rw [h] at hb; exact absurd hb (by simp [truthy])
      · intro h; rw [h] at ht; exact absurd ht (by simp [truthy])
    · have herr : PlexAPIClient.init config_instance =
          Except.error "PLEX_TOKEN variable not set" := by
        simp [PlexAPIClient.init, hb, eq_false_of_ne_true ht]
      refine ⟨fun _ => ⟨_, herr⟩, ?_, fun h => ?_⟩
      · rw [herr]
        constructor
        · rintro ⟨c, hc⟩; exact Except.noConfusion hc
        · rintro ⟨-, h2⟩; exact absurd h2 ht
      · rw [herr] at h
        rcases h with ⟨c, hc⟩
        exact Except.noConfusion hc
  · have herr : PlexAPIClient.init config_instance =
        Except.error "PLEX_BASEURL variable not set" := by
      simp [PlexAPIClient.init, eq_false_of_ne_true hb]
    refine ⟨fun _ => ⟨_, herr⟩, ?_, fun h => ?_⟩
    · rw [herr]
      constructor
      · rintro ⟨c, hc⟩; exact Except.noConfusion hc
      · rintro ⟨h1, -⟩; exact absurd h1 hb
    · rw [herr] at h
      rcases h with ⟨c, hc⟩
      exact Except.noConfusion hc

/-- C8 witness: constructing with both configuration values absent
raises. -/
theorem C8_construction_witness :
    ∃ msg, PlexAPIClient.init { baseurl := none, token := none } =
      Except.error msg :=
  (C8_construction { baseurl := none, token := none }).1 (Or.inl rfl)

end api_client

